import Mathlib

/-!
Shallow embedding of `src/daily copy.ts` (class `DailyReportClient`) of the
client-twitter-daily repository, together with theorems settling the frozen
claims about its specification.

Conventions of the embedding:
* JavaScript strings are embedded as `List Char` where character counts and
  truncation matter (tweet texts), and as `String` where they are opaque keys
  (user names, identifiers, hashtags).
* JavaScript numbers holding timestamps are embedded as `Int` (millisecond
  epoch values as produced by `Date.now()`); engagement counts as `Nat`.
* The external collaborators (the platform client `twitterClient`, the text
  generation service reached through `generateText`, the cache and memory
  stores) are modelled as an `Env` of oracles; each call the source makes is
  recorded in an action trace, so that the claims about ordering, fallback and
  persistence are statements about the trace.
* `async`/`await` sequencing is strictly linear in the source, so the
  embedding is direct state passing; a thrown JavaScript error is an
  `Except.error`.
-/

namespace Daily

/-- A platform post as consumed by `daily copy.ts` (the fields of the
`Tweet` type the source actually reads: engagement counts, hashtags, text,
timestamp, repost flag). -/
structure Tweet where
  id : String
  text : List Char
  timestamp : Int
  isRetweet : Bool
  likes : Nat
  retweets : Nat
  hashtags : List String
deriving DecidableEq, Repr

/-- The zero-engagement sentinel `{ likes: 0, retweets: 0 } as Tweet` used as
the initial accumulator of `findMostEngagedTweet` (the fields the cast leaves
undefined are defaulted). -/
def sentinelTweet : Tweet :=
  { id := "", text := [], timestamp := 0, isRetweet := false
    likes := 0, retweets := 0, hashtags := [] }

/-- Engagement of a post: `likes + retweets`. -/
def engagement (t : Tweet) : Nat := t.likes + t.retweets

/-- The reducer of source lines 400-402: `(prev, current) =>
(prev.likes + prev.retweets) > (current.likes + current.retweets) ? prev :
current`. -/
def engagedStep (prev current : Tweet) : Tweet :=
  if prev.likes + prev.retweets > current.likes + current.retweets then prev
  else current

/-- Source lines 396-403: `tweets.reduce(engagedStep,
{ likes: 0, retweets: 0 } as Tweet)`. -/
def findMostEngagedTweet (tweets : List Tweet) : Tweet :=
  tweets.foldl engagedStep sentinelTweet

/-- The flattened hashtag stream `tweets.flatMap(t => t.hashtags)`
(source line 361). -/
def tagStream (tweets : List Tweet) : List String :=
  tweets.flatMap (fun t => t.hashtags)

/-- One step of the `reduce` on source lines 362-365:
`acc[tag] = (acc[tag] || 0) + 1`.  A JavaScript object with non-numeric string
keys enumerates its keys in insertion order, so it is embedded as an
association list: an existing key is incremented in place, a new key is
appended. -/
def bump (acc : List (String × Nat)) (tag : String) : List (String × Nat) :=
  if acc.any (fun p => decide (p.1 = tag)) then
    acc.map (fun p => if p.1 = tag then (p.1, p.2 + 1) else p)
  else acc ++ [(tag, 1)]

/-- The `hashtagCount` object of source lines 360-365, as an association list
in key-insertion (first-encountered) order. -/
def hashtagCount (tweets : List Tweet) : List (String × Nat) :=
  (tagStream tweets).foldl bump []

/-- The keys a JavaScript object accumulates over a stream of (non-numeric)
string keys, in insertion order: the distinct elements of the stream ordered
by first occurrence. -/
def firstOccur : List String → List String
  | [] => []
  | t :: s => t :: (firstOccur s).filter (fun x => decide (x ≠ t))

/-- Insertion step of a stable descending sort by count: the element being
inserted originates earlier in the input than everything already sorted, so on
an equal count it is placed first. -/
def insertEntry (a : String × Nat) : List (String × Nat) → List (String × Nat)
  | [] => [a]
  | b :: l => if b.2 ≤ a.2 then a :: b :: l else b :: insertEntry a l

/-- Embedding of `Object.entries(hashtagCount).sort((a, b) => b[1] - a[1])`
(source line 368): JavaScript `Array.prototype.sort` is stable, and this
comparator orders by strictly descending count, so the call is a stable
descending sort by count. -/
def sortEntriesDesc (l : List (String × Nat)) : List (String × Nat) :=
  l.foldr insertEntry []

/-- Source lines 356-374, `getTopHashtags(tweets, limit = 3)`: count
occurrences, sort descending by count (stable), take the first `limit` tags. -/
def getTopHashtags (tweets : List Tweet) (limit : Nat := 3) : List String :=
  ((sortEntriesDesc (hashtagCount tweets)).take limit).map Prod.fst

/-- Prefix test on character lists (used to embed regular-expression
substring matching). -/
def listStartsWith : List Char → List Char → Bool
  | [], _ => true
  | _ :: _, [] => false
  | p :: ps, c :: cs => p = c && listStartsWith ps cs

/-- Substring containment on character lists: `containsSub pat s` holds when
`pat` occurs contiguously in `s`.  Embeds a `/(w1|w2|w3)/.test(s)` JavaScript
regular-expression test for a literal word `pat`. -/
def containsSub (pat : List Char) : List Char → Bool
  | [] => pat.isEmpty
  | c :: cs => listStartsWith pat (c :: cs) || containsSub pat cs

/-- Lowercasing of source line 381, `t.text.toLowerCase()` (ASCII suffices
for the lexicons being matched). -/
def listToLower (l : List Char) : List Char := l.map Char.toLower

/-- Positive-lexicon test of source line 382:
`/(great|awesome|amazing)/.test(text)` on the lowercased text. -/
def matchesPositive (t : Tweet) : Bool :=
  containsSub "great".data (listToLower t.text) ||
  containsSub "awesome".data (listToLower t.text) ||
  containsSub "amazing".data (listToLower t.text)

/-- Negative-lexicon test of source line 383:
`/(bad|terrible|disappointing)/.test(text)` on the lowercased text. -/
def matchesNegative (t : Tweet) : Bool :=
  containsSub "bad".data (listToLower t.text) ||
  containsSub "terrible".data (listToLower t.text) ||
  containsSub "disappointing".data (listToLower t.text)

/-- Per-post score of source lines 380-385: 1 for a positive match, else -1
for a negative match, else 0. -/
def sentimentScore (t : Tweet) : Int :=
  if matchesPositive t then 1
  else if matchesNegative t then -1
  else 0

/-- The `{ positive, neutral, negative }` tally returned by
`analyzeSentiment`. -/
structure SentimentCounts where
  positive : Nat
  neutral : Nat
  negative : Nat
deriving DecidableEq, Repr

/-- Source lines 376-394, `analyzeSentiment`: score every post, then count
the strictly positive, zero and strictly negative scores. -/
def analyzeSentiment (tweets : List Tweet) : SentimentCounts :=
  let scores := tweets.map sentimentScore
  { positive := (scores.filter (fun s => decide (0 < s))).length
    neutral := (scores.filter (fun s => decide (s = 0))).length
    negative := (scores.filter (fun s => decide (s < 0))).length }

/-! The pipeline model: configuration, external collaborators, traces. -/

/-- Outcome of `twitterClient.fetchSearchTweets` for one account:
the tweets on success, or a thrown error (caught on source lines 245-251). -/
inductive FetchOutcome where
  | ok (tweets : List Tweet)
  | err
deriving Repr

/-- The platform's response payload for a successful post creation, that is
the `...tweet_results.result` object consumed by `createTweetObject`
(source lines 516-539). -/
structure TweetResult where
  rest_id : String
  full_text : List Char
  conversation_id : String
  created_at : Int
deriving DecidableEq, Repr

/-- Outcome of `twitterClient.sendNoteTweet` as observed by
`handleNoteTweet` (source lines 459-483): a thrown error, a response whose
`errors` array is non-empty (the authorization rejection that triggers the
fallback), or a successful response carrying the created tweet. -/
inductive NoteOutcome where
  | throws
  | errs
  | ok (res : TweetResult)
deriving Repr

/-- Outcome of `twitterClient.sendTweet` as observed by `sendStandardTweet`
(source lines 495-513): a thrown error, a response body missing
`data.create_tweet.tweet_results.result` (the function then returns
`undefined`), or a successful response. -/
inductive StandardOutcome where
  | throws
  | badBody
  | ok (res : TweetResult)
deriving Repr

/-- The fields of `TwitterConfig` read by `daily copy.ts`.
`TWITTER_TARGET_USERS` is `Option`al so that the JavaScript truthiness test
`!this.client.twitterConfig.TWITTER_TARGET_USERS` can be embedded faithfully:
it is true exactly when the field is `undefined`/`null` (`none`); an array —
empty or not — is truthy (`some`). -/
structure TwitterConfig where
  TWITTER_TARGET_USERS : Option (List String)
  MAX_TWEET_LENGTH : Nat
  TWITTER_USERNAME : String

/-- Modelled from the spec: the platform's standard post length ceiling.
The constant `DEFAULT_MAX_TWEET_LENGTH` is imported from `./environment`,
which is not part of `src/`; the spec calls it "the platform's standard post
length ceiling" and its conventional value is 280 characters. -/
def DEFAULT_MAX_TWEET_LENGTH : Nat := 280

/-- The external collaborators, as oracles: the current clock, the platform
client's three calls and the two text-generation calls.  The generation
oracles take the data the source feeds into the corresponding call and may
fail (`GenerationError`). -/
structure Env where
  now : Int
  fetchSearchTweets : String → FetchOutcome
  trendSummary : Nat × List String × SentimentCounts × Tweet →
    Except Unit (List Char)
  reportContent : List Char → Except Unit (List Char)
  sendNoteTweet : List Char → NoteOutcome
  sendTweet : List Char → StandardOutcome

/-- Posting mode of a publication attempt: long-form (`sendNoteTweet`) or
standard (`sendTweet`). -/
inductive PubMode where
  | longForm
  | standard
deriving DecidableEq, Repr

/-- Observable external effects of one pipeline run, in order.
`publishSucceeded` marks the control point of source lines 435-439 where a
publication call has returned a usable result (immediately before
`processAndCacheTweet` persists its side effects). -/
inductive Action where
  | fetchCall (user : String)
  | genCall (idx : Nat)
  | pubCall (mode : PubMode) (text : List Char)
  | publishSucceeded (id : String)
  | cacheLastPost (id : String)
  | cacheTweet (id : String)
  | ensureRoom
  | ensureParticipant
  | createMemory (text : List Char)
deriving DecidableEq, Repr

/-- The mutable state shared across invocations: the in-flight guard
`this.isProcessing` (source line 84). -/
structure DailyState where
  isProcessing : Bool
deriving DecidableEq, Repr

/-! Collection Stage -/

/-- The filter predicate of source lines 221-233:
`!tweet.isRetweet && isRecent` where
`isRecent = Date.now() - tweet.timestamp < 24 * 60 * 60`.
The comparison is embedded exactly as written in the source (the spec notes
that its timestamp units are mixed; the recency window is whatever this
comparison computes). -/
def isValidTweet (env : Env) (t : Tweet) : Bool :=
  !t.isRetweet && decide (env.now - t.timestamp < 24 * 60 * 60)

/-- One iteration of the per-account loop of source lines 210-252: fetch the
account's tweets (a thrown fetch is caught and the account skipped); on
success push the filtered subset when it is non-empty (lines 235-240), then
push the entire unfiltered fetch result (line 241). -/
def collectUser (env : Env) (username : String) : List Tweet × List Action :=
  match env.fetchSearchTweets username with
  | .err => ([], [.fetchCall username])
  | .ok userTweets =>
      let validTweets := userTweets.filter (isValidTweet env)
      let pushed :=
        if validTweets.length > 0 then validTweets ++ userTweets
        else userTweets
      (pushed, [.fetchCall username])

/-- Source lines 195-259, `collectTargetUsersTweets`, taking the target-user
list the guarded caller found present.  Both redundant emptiness checks of
lines 202 and 207 are kept. -/
def collectTargetUsersTweets (env : Env) (targetUsers : List String) :
    List Tweet × List Action :=
  if targetUsers.length ≠ 0 then
    if targetUsers.length > 0 then
      targetUsers.foldl
        (fun acc u =>
          (acc.1 ++ (collectUser env u).1, acc.2 ++ (collectUser env u).2))
        ([], [])
    else ([], [])
  else ([], [])

/-! Summarization Stage -/

/-- Source lines 261-308, `generateTrendSummary`: compute the analysis record
of lines 266-271 with the pure analytics functions, then make the first
external generation call (`composeState`/`composeContext`/`generateText`/
`cleanJsonResponse` are external collaborators absorbed into the oracle,
which receives the analysis data). -/
def generateTrendSummary (env : Env) (tweets : List Tweet) :
    Except Unit (List Char) × List Action :=
  let analysis :=
    (tweets.length, getTopHashtags tweets, analyzeSentiment tweets,
      findMostEngagedTweet tweets)
  (env.trendSummary analysis, [.genCall 1])

/-- Source lines 310-338, `generateReportContent`: the second external
generation call, fed the summary text. -/
def generateReportContent (env : Env) (summary : List Char) :
    Except Unit (List Char) × List Action :=
  (env.reportContent summary, [.genCall 2])

/-! Publication Stage -/

/-- A sentence terminator, for truncation to a complete sentence. -/
def isSentenceEnd (c : Char) : Bool := c = '.' || c = '!' || c = '?'

/-- Modelled from the spec: `truncateToCompleteSentence` is imported from
`@elizaos/core`, which is not part of `src/`.  Following the spec's words —
"truncate the text to the nearest complete sentence within the platform's
standard length ceiling" — text that already fits is returned unchanged, and
longer text is cut to the longest prefix of at most `maxLen` characters that
ends in a sentence terminator. -/
def truncateToCompleteSentence (text : List Char) (maxLen : Nat) : List Char :=
  if text.length ≤ maxLen then text
  else ((text.take maxLen).reverse.dropWhile (fun c => !isSentenceEnd c)).reverse

/-- Source lines 489-514, `sendStandardTweet`: one `sendTweet` call; a thrown
error is re-thrown, a body missing the expected result payload yields
`undefined` (`none`), otherwise the result payload is returned. -/
def sendStandardTweet (env : Env) (content : List Char) :
    Except Unit (Option TweetResult) × List Action :=
  match env.sendTweet content with
  | .throws => (.error (), [.pubCall .standard content])
  | .badBody => (.ok none, [.pubCall .standard content])
  | .ok res => (.ok (some res), [.pubCall .standard content])

/-- Source lines 453-487, `handleNoteTweet`: one `sendNoteTweet` call; when
the response carries a non-empty `errors` array (the authorization
rejection), the content is truncated with `truncateToCompleteSentence` to
`this.client.twitterConfig.MAX_TWEET_LENGTH` and exactly one standard attempt
is made with the truncated text; a thrown error anywhere inside is wrapped
and re-thrown. -/
def handleNoteTweet (env : Env) (cfg : TwitterConfig) (content : List Char) :
    Except Unit (Option TweetResult) × List Action :=
  match env.sendNoteTweet content with
  | .throws => (.error (), [.pubCall .longForm content])
  | .errs =>
      let truncateContent :=
        truncateToCompleteSentence content cfg.MAX_TWEET_LENGTH
      let fallback := sendStandardTweet env truncateContent
      (fallback.1, .pubCall .longForm content :: fallback.2)
  | .ok res => (.ok (some res), [.pubCall .longForm content])

/-- Source lines 516-539, `createTweetObject`: build the canonical post
record from the platform's response payload (fields the source does not set
are defaulted, matching its `as Tweet` cast). -/
def createTweetObject (res : TweetResult) : Tweet :=
  { id := res.rest_id
    text := res.full_text
    timestamp := res.created_at
    isRetweet := false
    likes := 0
    retweets := 0
    hashtags := [] }

/-- Trimming of `rawTweetContent.trim()` (source line 573). -/
def listTrim (l : List Char) : List Char :=
  ((l.dropWhile Char.isWhitespace).reverse.dropWhile Char.isWhitespace).reverse

/-- Source lines 541-581, `processAndCacheTweet`: the persisted side effects
of a successful publication, in order — the last-post cache entry, the tweet
cache entry, the idempotent room/participant checks, the memory record. -/
def processAndCacheTweet (tweet : Tweet) (rawTweetContent : List Char) :
    List Action :=
  [ .cacheLastPost tweet.id, .cacheTweet tweet.id, .ensureRoom,
    .ensureParticipant, .createMemory (listTrim rawTweetContent) ]

/-- Source lines 405-451, `postTweet`: route on
`tweetTextForPosting.length > DEFAULT_MAX_TWEET_LENGTH` to `handleNoteTweet`
or `sendStandardTweet`; then `createTweetObject` and `processAndCacheTweet`.
A thrown error is caught and logged (the function never throws); when the
send returned `undefined`, the property access `tweetResult.rest_id` inside
`createTweetObject` throws, which the same catch absorbs — so no persistence
happens on that path either. -/
def postTweet (env : Env) (cfg : TwitterConfig)
    (tweetTextForPosting rawTweetContent : List Char) : List Action :=
  let sent :=
    if DEFAULT_MAX_TWEET_LENGTH < tweetTextForPosting.length then
      handleNoteTweet env cfg tweetTextForPosting
    else
      sendStandardTweet env tweetTextForPosting
  match sent.1 with
  | .error _ => sent.2
  | .ok none => sent.2
  | .ok (some res) =>
      let tweet := createTweetObject res
      sent.2 ++ Action.publishSucceeded tweet.id ::
        processAndCacheTweet tweet rawTweetContent

/-! Pipeline Orchestrator -/

/-- Source lines 166-193, `runDailyReport`.  The guard of line 167 returns
silently when the in-flight flag is set or `TWITTER_TARGET_USERS` is falsy
(`undefined`/`null`, embedded as `none`; an array, even empty, is truthy).
Otherwise `isProcessing` is set, the four stages run inside `try`, any stage
failure is caught and logged, and the `finally` of line 190 clears
`isProcessing` on every path, so every exit below finishes with the flag
cleared. -/
def runDailyReport (env : Env) (cfg : TwitterConfig) (st : DailyState) :
    DailyState × List Action :=
  match cfg.TWITTER_TARGET_USERS with
  | none => (st, [])
  | some users =>
    if st.isProcessing then (st, [])
    else
      let collected := collectTargetUsersTweets env users
      let gen1 := generateTrendSummary env collected.1
      match gen1.1 with
      | .error _ => (⟨false⟩, collected.2 ++ gen1.2)
      | .ok summary =>
        let gen2 := generateReportContent env summary
        match gen2.1 with
        | .error _ => (⟨false⟩, collected.2 ++ gen1.2 ++ gen2.2)
        | .ok content =>
          (⟨false⟩, collected.2 ++ gen1.2 ++ gen2.2 ++
            postTweet env cfg content content)

/-- Publication attempts recorded in a trace, in order. -/
def pubCallsOf (tr : List Action) : List (PubMode × List Char) :=
  tr.filterMap fun a =>
    match a with
    | .pubCall m c => some (m, c)
    | _ => none

/-- Whether an action is a persisted side effect (a cache write, a
room/participant creation or a memory record). -/
def isPersistAction : Action → Bool
  | .cacheLastPost _ => true
  | .cacheTweet _ => true
  | .ensureRoom => true
  | .ensureParticipant => true
  | .createMemory _ => true
  | _ => false

/-- Whether an action marks a publication call having returned a usable
result. -/
def isPublishSuccess : Action → Bool
  | .publishSucceeded _ => true
  | _ => false

/-! Concrete environments and inputs used by witnesses -/

/-- An environment in which every external call fails. -/
def envFail : Env :=
  { now := 0
    fetchSearchTweets := fun _ => .err
    trendSummary := fun _ => .error ()
    reportContent := fun _ => .error ()
    sendNoteTweet := fun _ => .throws
    sendTweet := fun _ => .throws }

/-- A configuration with one monitored account. -/
def cfgOne : TwitterConfig :=
  { TWITTER_TARGET_USERS := some ["alice"]
    MAX_TWEET_LENGTH := 280
    TWITTER_USERNAME := "agent" }

/-- A stale repost: posted at epoch 0, `isRetweet` set. -/
def staleRepost : Tweet :=
  { id := "t1", text := "old".data, timestamp := 0, isRetweet := true
    likes := 1, retweets := 1, hashtags := [] }

/-- An environment whose single account yields one stale repost. -/
def envStale : Env :=
  { envFail with
    now := 1000000000
    fetchSearchTweets := fun _ => .ok [staleRepost] }

/-- A fresh original post relative to `envFresh.now = 1000000000`. -/
def freshTweet : Tweet :=
  { id := "t2", text := "new".data, timestamp := 999999990, isRetweet := false
    likes := 3, retweets := 2, hashtags := ["AI"] }

/-- An environment whose single account yields one fresh original post. -/
def envFresh : Env :=
  { envFail with
    now := 1000000000
    fetchSearchTweets := fun _ => .ok [freshTweet] }

/-- An environment in which both generation calls succeed with short texts
and standard publication succeeds. -/
def envPublishOk : Env :=
  { envFail with
    trendSummary := fun _ => .ok "summary".data
    reportContent := fun _ => .ok "Daily report.".data
    sendTweet := fun _ => .ok ⟨"r1", "Daily report.".data, "c1", 5⟩ }

/-- A configuration whose monitored-account list is the empty array (truthy
in JavaScript). -/
def cfgEmptyUsers : TwitterConfig :=
  { TWITTER_TARGET_USERS := some []
    MAX_TWEET_LENGTH := 280
    TWITTER_USERNAME := "agent" }

/-- First of two posts tied at engagement 5. -/
def tieA : Tweet :=
  { id := "a", text := [], timestamp := 0, isRetweet := false
    likes := 2, retweets := 3, hashtags := [] }

/-- Second of two posts tied at engagement 5. -/
def tieB : Tweet :=
  { id := "b", text := [], timestamp := 0, isRetweet := false
    likes := 5, retweets := 0, hashtags := [] }

/-- A post with engagement 3, below the tied maxima. -/
def tieC : Tweet :=
  { id := "c", text := [], timestamp := 0, isRetweet := false
    likes := 1, retweets := 2, hashtags := [] }

/-- A post carrying hashtag "AI" (first post of the spec's end-to-end
scenario). -/
def hashPost1 : Tweet :=
  { id := "h1", text := [], timestamp := 0, isRetweet := false
    likes := 0, retweets := 0, hashtags := ["AI"] }

/-- A post carrying hashtags "AI" and "DeFi" (second post of the spec's
end-to-end scenario). -/
def hashPost2 : Tweet :=
  { id := "h2", text := [], timestamp := 0, isRetweet := false
    likes := 0, retweets := 0, hashtags := ["AI", "DeFi"] }

/-- A 301-character text whose only sentence terminator sits at position 100:
longer than the 280-character standard ceiling, with a complete sentence
inside it. -/
def longText : List Char :=
  List.replicate 100 'a' ++ '.' :: List.replicate 200 'b'

/-- An environment whose long-form publication is rejected with a non-empty
`errors` array, forcing the truncate-and-retry fallback. -/
def envNoteRejected : Env :=
  { envFail with
    sendNoteTweet := fun _ => .errs
    sendTweet := fun _ => .ok ⟨"r2", "ok".data, "c2", 7⟩ }

/-! Orchestrator claims -/

/-- C3: invoking `runDailyReport` while a previous invocation is still in
flight (the `isProcessing` guard is set) is a silent no-op — the state is
unchanged and no external action (no stage, no publication) is performed. -/
theorem C3_inflight_guard_noop (env : Env) (cfg : TwitterConfig)
    (st : DailyState) (h : st.isProcessing = true) :
    runDailyReport env cfg st = (st, []) := by
  unfold runDailyReport
  cases cfg.TWITTER_TARGET_USERS <;> simp [h]

/-- Witness for C3 at a concrete environment and state. -/
theorem C3_inflight_guard_noop_witness :
    runDailyReport envFail cfgOne ⟨true⟩ = (⟨true⟩, []) :=
  C3_inflight_guard_noop envFail cfgOne ⟨true⟩ rfl

/-- C9: an invocation that sets the in-flight guard (the guard was clear and
the target-user list present, so the run body executes) finishes with the
guard cleared, on the success path and on every failure path — the embedding
quantifies over all environments, hence over all stage outcomes. -/
theorem C9_guard_cleared (env : Env) (cfg : TwitterConfig) (st : DailyState)
    (h1 : st.isProcessing = false) (h2 : cfg.TWITTER_TARGET_USERS ≠ none) :
    ((runDailyReport env cfg st).1).isProcessing = false := by
  unfold runDailyReport
  cases hc : cfg.TWITTER_TARGET_USERS with
  | none => exact absurd hc h2
  | some users =>
    simp only [h1, Bool.false_eq_true, if_false]
    split
    · rfl
    · split <;> rfl

/-- Witness for C9 at a concrete environment in which every stage fails. -/
theorem C9_guard_cleared_witness :
    ((runDailyReport envFail cfgOne ⟨false⟩).1).isProcessing = false :=
  C9_guard_cleared envFail cfgOne ⟨false⟩ rfl (by decide)

/-! Collection claims -/

/-- C1 fails on the code: line 241 pushes the entire unfiltered fetch result,
so the list returned by `collectTargetUsersTweets` contains a post that is
both a repost and far outside the recency window.  This evaluates the
embedded code at that failing input. -/
theorem C1_collect_returns_stale_repost :
    staleRepost ∈ (collectTargetUsersTweets envStale ["alice"]).1 ∧
    staleRepost.isRetweet = true ∧
    ¬(envStale.now - staleRepost.timestamp < 24 * 60 * 60) := by decide

/-- C4 fails on the code: an empty target-user array is truthy in
JavaScript, so the guard of line 167 does not fire; every stage runs on the
empty tweet list and a digest is published.  This evaluates the embedded code
at that failing input (empty monitored-account list, all external calls
succeeding). -/
theorem C4_empty_list_still_publishes :
    cfgEmptyUsers.TWITTER_TARGET_USERS = some [] ∧
    Action.publishSucceeded "r1" ∈
      (runDailyReport envPublishOk cfgEmptyUsers ⟨false⟩).2 ∧
    Action.pubCall .standard "Daily report.".data ∈
      (runDailyReport envPublishOk cfgEmptyUsers ⟨false⟩).2 := by decide

/-! Most-engaged-post claims -/

theorem engagedStep_eq_right {p c : Tweet} (h : engagement p ≤ engagement c) :
    engagedStep p c = c := by
  unfold engagedStep
  rw [if_neg]
  unfold engagement at h
  omega

theorem foldl_engaged_le {E : Nat} :
    ∀ (l : List Tweet) (acc : Tweet), engagement acc ≤ E →
      (∀ x ∈ l, engagement x ≤ E) →
      engagement (l.foldl engagedStep acc) ≤ E := by
  intro l
  induction l with
  | nil => intro acc hacc _; simpa using hacc
  | cons x l ih =>
    intro acc hacc hl
    rw [List.foldl_cons]
    refine ih (engagedStep acc x) ?_ (fun y hy => hl y (List.mem_cons_of_mem _ hy))
    unfold engagedStep
    split
    · exact hacc
    · exact hl x (List.mem_cons_self _ _)

theorem foldl_engaged_keep :
    ∀ (l : List Tweet) (acc : Tweet),
      (∀ x ∈ l, engagement x < engagement acc) →
      l.foldl engagedStep acc = acc := by
  intro l
  induction l with
  | nil => intro acc _; rfl
  | cons x l ih =>
    intro acc hl
    rw [List.foldl_cons]
    have hx : engagement x < engagement acc := hl x (List.mem_cons_self _ _)
    have hstep : engagedStep acc x = acc := by
      unfold engagedStep
      rw [if_pos]
      unfold engagement at hx
      omega
    rw [hstep]
    exact ih acc (fun y hy => hl y (List.mem_cons_of_mem _ hy))

/-- C5 counterexample: two posts tied at the maximal `likes + retweets` sum;
the fold keeps `current` on a tie (the comparison is strict), so the
last-encountered post of the tied maxima is returned — not the
first-encountered one the claim states. -/
theorem C5_tie_counterexample :
    tieA.likes + tieA.retweets = tieB.likes + tieB.retweets ∧
    findMostEngagedTweet [tieA, tieB] = tieB ∧ tieB ≠ tieA := by decide

/-- C5 amended: `findMostEngagedTweet` over an empty list returns the
zero-engagement sentinel; over a single-element list it returns that post;
and whenever every post before `b` has engagement at most `b`'s and every
post after `b` has engagement strictly below `b`'s — in particular when two
posts are tied for the maximum and `b` is the last-encountered of the tied
maxima — it returns `b`. -/
theorem C5_mostEngaged_amended :
    findMostEngagedTweet [] = sentinelTweet ∧
    (∀ t : Tweet, findMostEngagedTweet [t] = t) ∧
    (∀ (xs zs : List Tweet) (b : Tweet),
      (∀ x ∈ xs, engagement x ≤ engagement b) →
      (∀ z ∈ zs, engagement z < engagement b) →
      findMostEngagedTweet (xs ++ b :: zs) = b) := by
  refine ⟨rfl, ?_, ?_⟩
  · intro t
    have h : engagedStep sentinelTweet t = t :=
      engagedStep_eq_right (by simp [engagement, sentinelTweet])
    simp [findMostEngagedTweet, h]
  · intro xs zs b hxs hzs
    unfold findMostEngagedTweet
    rw [List.foldl_append, List.foldl_cons]
    have hacc : engagement (xs.foldl engagedStep sentinelTweet) ≤ engagement b :=
      foldl_engaged_le xs sentinelTweet (by simp [engagement, sentinelTweet]) hxs
    rw [engagedStep_eq_right hacc]
    exact foldl_engaged_keep zs b hzs

/-- Witness for C5's amended statement: the last-encountered of two tied
maxima is returned even when followed by smaller posts. -/
theorem C5_mostEngaged_amended_witness :
    findMostEngagedTweet [tieA, tieB, tieC] = tieB := by
  have h := C5_mostEngaged_amended
  exact h.2.2 [tieA] [tieC] tieB (by decide) (by decide)

/-! Duplicate-append claim -/

theorem collectUser_trace (env : Env) (u : String) :
    (collectUser env u).2 = [.fetchCall u] := by
  cases h : env.fetchSearchTweets u <;> simp [collectUser, h]

theorem collectUser_ok (env : Env) {u : String} {ts : List Tweet}
    (hu : env.fetchSearchTweets u = .ok ts) :
    (collectUser env u).1 = ts.filter (isValidTweet env) ++ ts := by
  unfold collectUser
  rw [hu]
  by_cases h : (ts.filter (isValidTweet env)).length > 0
  · simp [h]
  · have hnil : ts.filter (isValidTweet env) = [] :=
      List.length_eq_zero.mp (by omega)
    simp [h, hnil]

theorem foldl_acc_pairs (f g : String → List Tweet × List Action) :
    ∀ (users : List String) (acc : List Tweet × List Action),
      users.foldl (fun acc u => (acc.1 ++ (f u).1, acc.2 ++ (g u).2)) acc =
        (acc.1 ++ users.flatMap (fun u => (f u).1),
          acc.2 ++ users.flatMap (fun u => (g u).2)) := by
  intro users
  induction users with
  | nil => intro acc; simp
  | cons u users ih =>
    intro acc
    rw [List.foldl_cons, ih]
    simp [List.flatMap_cons]

theorem collectTargetUsersTweets_eq (env : Env) (users : List String) :
    collectTargetUsersTweets env users =
      (users.flatMap (fun u => (collectUser env u).1),
        users.flatMap (fun u => (collectUser env u).2)) := by
  unfold collectTargetUsersTweets
  cases users with
  | nil => simp
  | cons u users =>
    simp only [List.length_cons]
    rw [if_pos (by omega), if_pos (by omega)]
    exact foldl_acc_pairs (collectUser env) (collectUser env) (u :: users) ([], [])

/-- C10: for each account whose fetch succeeds, `collectTargetUsersTweets`
appends both the filtered subset and the entire unfiltered fetch result to
its output (the output is the concatenation of the per-account
contributions), so a post that passes the recency-and-non-repost filter
appears twice as often in the contribution as in the fetch result — in
particular, a passing post fetched once appears twice. -/
theorem C10_duplicate_append (env : Env) (users : List String) (u : String)
    (ts : List Tweet) (t : Tweet)
    (hu : env.fetchSearchTweets u = .ok ts)
    (ht : isValidTweet env t = true) :
    (collectTargetUsersTweets env users).1 =
      users.flatMap (fun v => (collectUser env v).1) ∧
    (collectUser env u).1 = ts.filter (isValidTweet env) ++ ts ∧
    (collectUser env u).1.count t = 2 * ts.count t := by
  refine ⟨by rw [collectTargetUsersTweets_eq], collectUser_ok env hu, ?_⟩
  rw [collectUser_ok env hu, List.count_append, List.count_filter ht]
  omega

/-- Witness for C10: one fresh original post fetched once appears twice in
the collected output. -/
theorem C10_duplicate_append_witness :
    (collectUser envFresh "alice").1.count freshTweet =
      2 * ([freshTweet].count freshTweet) :=
  (C10_duplicate_append envFresh ["alice"] "alice" [freshTweet] freshTweet
    rfl (by decide)).2.2

/-! Sentiment claims -/

theorem score_pos_bool (t : Tweet) :
    decide (0 < sentimentScore t) = matchesPositive t := by
  unfold sentimentScore
  by_cases hp : matchesPositive t
  · simp [hp]
  · by_cases hn : matchesNegative t <;> simp [hp, hn]

theorem score_neg_bool (t : Tweet) :
    decide (sentimentScore t < 0) =
      (!matchesPositive t && matchesNegative t) := by
  unfold sentimentScore
  by_cases hp : matchesPositive t
  · simp [hp]
  · by_cases hn : matchesNegative t <;> simp [hp, hn]

theorem score_zero_bool (t : Tweet) :
    decide (sentimentScore t = 0) =
      (!matchesPositive t && !matchesNegative t) := by
  unfold sentimentScore
  by_cases hp : matchesPositive t
  · simp [hp]
  · by_cases hn : matchesNegative t <;> simp [hp, hn]

theorem filter_scores_length (p : Int → Bool) (q : Tweet → Bool)
    (hpq : ∀ t : Tweet, p (sentimentScore t) = q t) (tweets : List Tweet) :
    ((tweets.map sentimentScore).filter p).length =
      (tweets.filter q).length := by
  induction tweets with
  | nil => rfl
  | cons t ts ih =>
    rw [List.map_cons, List.filter_cons, List.filter_cons, hpq t]
    cases q t <;> simp [ih]

theorem filter_partition_length (tweets : List Tweet) :
    (tweets.filter matchesPositive).length +
      (tweets.filter
        (fun t => !matchesPositive t && !matchesNegative t)).length +
      (tweets.filter
        (fun t => !matchesPositive t && matchesNegative t)).length =
      tweets.length := by
  induction tweets with
  | nil => rfl
  | cons t ts ih =>
    rw [List.filter_cons, List.filter_cons, List.filter_cons]
    cases hp : matchesPositive t <;> cases hn : matchesNegative t <;>
      simp [hp, hn] <;> omega

/-- C7: `analyzeSentiment` assigns each post exactly one class — positive
when the lowercased text matches the positive lexicon, otherwise negative
when it matches the negative lexicon, otherwise neutral — and the three
counts sum to the input length. -/
theorem C7_sentiment_partition (tweets : List Tweet) :
    (analyzeSentiment tweets).positive =
      (tweets.filter matchesPositive).length ∧
    (analyzeSentiment tweets).negative =
      (tweets.filter (fun t => !matchesPositive t && matchesNegative t)).length ∧
    (analyzeSentiment tweets).neutral =
      (tweets.filter
        (fun t => !matchesPositive t && !matchesNegative t)).length ∧
    (analyzeSentiment tweets).positive + (analyzeSentiment tweets).neutral +
      (analyzeSentiment tweets).negative = tweets.length := by
  have hpos :
      (analyzeSentiment tweets).positive =
        (tweets.filter matchesPositive).length := by
    unfold analyzeSentiment
    exact filter_scores_length _ _ score_pos_bool tweets
  have hneg :
      (analyzeSentiment tweets).negative =
        (tweets.filter
          (fun t => !matchesPositive t && matchesNegative t)).length := by
    unfold analyzeSentiment
    exact filter_scores_length _ _ score_neg_bool tweets
  have hneu :
      (analyzeSentiment tweets).neutral =
        (tweets.filter
          (fun t => !matchesPositive t && !matchesNegative t)).length := by
    unfold analyzeSentiment
    exact filter_scores_length _ _ score_zero_bool tweets
  refine ⟨hpos, hneg, hneu, ?_⟩
  rw [hpos, hneg, hneu]
  exact filter_partition_length tweets

/-! Persistence claims -/

theorem sendStandardTweet_trace (env : Env) (c : List Char) :
    (sendStandardTweet env c).2 = [.pubCall .standard c] := by
  cases h : env.sendTweet c <;> simp [sendStandardTweet, h]

theorem handleNoteTweet_trace (env : Env) (cfg : TwitterConfig)
    (c : List Char) :
    (handleNoteTweet env cfg c).2 = [.pubCall .longForm c] ∨
    (handleNoteTweet env cfg c).2 =
      [.pubCall .longForm c,
        .pubCall .standard
          (truncateToCompleteSentence c cfg.MAX_TWEET_LENGTH)] := by
  cases h : env.sendNoteTweet c
  · left; simp [handleNoteTweet, h]
  · right; simp [handleNoteTweet, h, sendStandardTweet_trace]
  · left; simp [handleNoteTweet, h]

theorem sent_actions_clean (env : Env) (cfg : TwitterConfig) (t : List Char) :
    ∀ a ∈ (if DEFAULT_MAX_TWEET_LENGTH < t.length then
        handleNoteTweet env cfg t
      else sendStandardTweet env t).2,
      isPersistAction a = false ∧ isPublishSuccess a = false := by
  intro a ha
  by_cases hl : DEFAULT_MAX_TWEET_LENGTH < t.length
  · rw [if_pos hl] at ha
    rcases handleNoteTweet_trace env cfg t with h | h <;> rw [h] at ha <;>
      simp at ha
    · subst ha; exact ⟨rfl, rfl⟩
    · rcases ha with ha | ha <;> subst ha <;> exact ⟨rfl, rfl⟩
  · rw [if_neg hl, sendStandardTweet_trace] at ha
    simp at ha
    subst ha; exact ⟨rfl, rfl⟩

theorem postTweet_trace_char (env : Env) (cfg : TwitterConfig)
    (t r : List Char) :
    postTweet env cfg t r =
      (if DEFAULT_MAX_TWEET_LENGTH < t.length then handleNoteTweet env cfg t
        else sendStandardTweet env t).2 ∨
    ∃ res : TweetResult,
      postTweet env cfg t r =
        (if DEFAULT_MAX_TWEET_LENGTH < t.length then handleNoteTweet env cfg t
          else sendStandardTweet env t).2 ++
          Action.publishSucceeded (createTweetObject res).id ::
            processAndCacheTweet (createTweetObject res) r := by
  unfold postTweet
  rcases h : (if DEFAULT_MAX_TWEET_LENGTH < t.length then
      handleNoteTweet env cfg t
    else sendStandardTweet env t).1 with u | o
  · left; simp only [h]
  · cases o with
    | none => left; simp only [h]
    | some res => right; exact ⟨res, by simp only [h]⟩

theorem postTweet_no_publish_no_persist (env : Env) (cfg : TwitterConfig)
    (t r : List Char)
    (h : ∀ a ∈ postTweet env cfg t r, isPublishSuccess a = false) :
    ∀ a ∈ postTweet env cfg t r, isPersistAction a = false := by
  intro a ha
  rcases postTweet_trace_char env cfg t r with htr | ⟨res, htr⟩
  · rw [htr] at ha
    exact (sent_actions_clean env cfg t a ha).1
  · exfalso
    have hm : Action.publishSucceeded (createTweetObject res).id ∈
        postTweet env cfg t r := by
      rw [htr]
      exact List.mem_append_right _ (List.mem_cons_self _ _)
    have := h _ hm
    simp [isPublishSuccess] at this

theorem collect_trace_actions (env : Env) (users : List String) :
    ∀ a ∈ (collectTargetUsersTweets env users).2, ∃ u, a = .fetchCall u := by
  intro a ha
  rw [collectTargetUsersTweets_eq] at ha
  rw [List.mem_flatMap] at ha
  rcases ha with ⟨u, _, hmem⟩
  rw [collectUser_trace] at hmem
  simp at hmem
  exact ⟨u, hmem⟩

theorem runDailyReport_trace_char (env : Env) (cfg : TwitterConfig)
    (st : DailyState) :
    (runDailyReport env cfg st).2 = [] ∨
    ∃ users, cfg.TWITTER_TARGET_USERS = some users ∧
      ((runDailyReport env cfg st).2 =
          (collectTargetUsersTweets env users).2 ++ [.genCall 1] ∨
        (runDailyReport env cfg st).2 =
          (collectTargetUsersTweets env users).2 ++ [.genCall 1] ++
            [.genCall 2] ∨
        ∃ content, (runDailyReport env cfg st).2 =
          (collectTargetUsersTweets env users).2 ++ [.genCall 1] ++
            [.genCall 2] ++ postTweet env cfg content content) := by
  unfold runDailyReport
  cases hc : cfg.TWITTER_TARGET_USERS with
  | none => left; rfl
  | some users =>
    by_cases hp : st.isProcessing
    · left; simp [hp]
    · simp only [hp, Bool.false_eq_true, if_false]
      rcases hg1 : (generateTrendSummary env
          (collectTargetUsersTweets env users).1).1 with u | s
      · right
        exact ⟨users, rfl, Or.inl (by simp only [hg1]; rfl)⟩
      · rcases hg2 : (generateReportContent env s).1 with u | content
        · right
          refine ⟨users, rfl, Or.inr (Or.inl ?_)⟩
          simp only [hg1, hg2]
          rfl
        · right
          refine ⟨users, rfl, Or.inr (Or.inr ⟨content, ?_⟩)⟩
          simp only [hg1, hg2]
          rfl

/-- C8: a pipeline run that never reaches a successful publication (no
`publishSucceeded` point in its trace — in particular any run failing at an
earlier stage) performs no persisted side effect: no cache write, no
room/participant creation, no memory record. -/
theorem C8_no_persist_without_publish (env : Env) (cfg : TwitterConfig)
    (st : DailyState)
    (h : ∀ a ∈ (runDailyReport env cfg st).2, isPublishSuccess a = false) :
    ∀ a ∈ (runDailyReport env cfg st).2, isPersistAction a = false := by
  intro a ha
  rcases runDailyReport_trace_char env cfg st with
    h0 | ⟨users, hc, h1 | h1 | ⟨content, h1⟩⟩
  · rw [h0] at ha; cases ha
  · rw [h1] at ha
    rcases List.mem_append.mp ha with ha | ha
    · rcases collect_trace_actions env users a ha with ⟨u, rfl⟩; rfl
    · simp at ha; subst ha; rfl
  · rw [h1] at ha
    rcases List.mem_append.mp ha with ha | ha
    · rcases List.mem_append.mp ha with ha | ha
      · rcases collect_trace_actions env users a ha with ⟨u, rfl⟩; rfl
      · simp at ha; subst ha; rfl
    · simp at ha; subst ha; rfl
  · rw [h1] at ha h
    rcases List.mem_append.mp ha with ha | ha
    · rcases List.mem_append.mp ha with ha | ha
      · rcases List.mem_append.mp ha with ha | ha
        · rcases collect_trace_actions env users a ha with ⟨u, rfl⟩; rfl
        · simp at ha; subst ha; rfl
      · simp at ha; subst ha; rfl
    · refine postTweet_no_publish_no_persist env cfg content content ?_ a ha
      intro b hb
      exact h b (List.mem_append_right _ hb)

/-- Witness for C8 at a concrete run that fails at the summarization stage:
its trace holds the first generation call, and that action persists
nothing. -/
theorem C8_no_persist_without_publish_witness :
    isPersistAction (Action.genCall 1) = false :=
  C8_no_persist_without_publish envFail cfgOne ⟨false⟩ (by decide)
    (Action.genCall 1) (by decide)

/-! Publication routing and fallback claims -/

theorem pubCallsOf_append (l1 l2 : List Action) :
    pubCallsOf (l1 ++ l2) = pubCallsOf l1 ++ pubCallsOf l2 := by
  unfold pubCallsOf
  exact List.filterMap_append _ _ _

theorem trunc_length_le (l : List Char) (n : Nat) (h : n < l.length) :
    (truncateToCompleteSentence l n).length ≤ n := by
  unfold truncateToCompleteSentence
  rw [if_neg (by omega)]
  calc ((l.take n).reverse.dropWhile (fun c => !isSentenceEnd c)).reverse.length
      = ((l.take n).reverse.dropWhile (fun c => !isSentenceEnd c)).length :=
        List.length_reverse _
    _ ≤ (l.take n).reverse.length :=
        (List.dropWhile_sublist _).length_le
    _ = (l.take n).length := List.length_reverse _
    _ ≤ n := by rw [List.length_take]; omega

theorem trunc_last_sentence (l : List Char) (n : Nat) (h : n < l.length)
    (hex : ∃ c ∈ l.take n, isSentenceEnd c = true) :
    ∃ c, (truncateToCompleteSentence l n).getLast? = some c ∧
      isSentenceEnd c = true := by
  unfold truncateToCompleteSentence
  rw [if_neg (by omega)]
  have hne : (l.take n).reverse.dropWhile (fun c => !isSentenceEnd c) ≠ [] := by
    intro hnil
    rw [List.dropWhile_eq_nil_iff] at hnil
    rcases hex with ⟨c, hc, hcs⟩
    have hcm : c ∈ (l.take n).reverse := List.mem_reverse.mpr hc
    have := hnil c hcm
    simp [hcs] at this
  rw [List.getLast?_reverse]
  refine ⟨((l.take n).reverse.dropWhile (fun c => !isSentenceEnd c)).head hne,
    List.head?_eq_head hne, ?_⟩
  have := List.head_dropWhile_not (fun c => !isSentenceEnd c)
    (l.take n).reverse hne
  simpa using this

theorem handleNoteTweet_trace_errs (env : Env) (cfg : TwitterConfig)
    (c : List Char) (h : env.sendNoteTweet c = .errs) :
    (handleNoteTweet env cfg c).2 =
      [.pubCall .longForm c,
        .pubCall .standard
          (truncateToCompleteSentence c cfg.MAX_TWEET_LENGTH)] := by
  simp [handleNoteTweet, h, sendStandardTweet_trace]

theorem postTweet_pubCalls (env : Env) (cfg : TwitterConfig)
    (t r : List Char) :
    pubCallsOf (postTweet env cfg t r) =
      pubCallsOf ((if DEFAULT_MAX_TWEET_LENGTH < t.length then
          handleNoteTweet env cfg t
        else sendStandardTweet env t).2) := by
  rcases postTweet_trace_char env cfg t r with htr | ⟨res, htr⟩
  · rw [htr]
  · rw [htr, pubCallsOf_append]
    have hnil : pubCallsOf (Action.publishSucceeded (createTweetObject res).id ::
        processAndCacheTweet (createTweetObject res) r) = [] := rfl
    rw [hnil, List.append_nil]

/-- C2: `postTweet` routes to long-form publication exactly when the text
exceeds the standard post length ceiling, and otherwise attempts standard
publication directly; when the long-form call is rejected with a non-empty
errors array, exactly one fallback standard publication is attempted, its
text being the input truncated to the nearest complete sentence, not
exceeding the standard ceiling and ending on a sentence terminator.  The
hypothesis `hceil` identifies the configured `MAX_TWEET_LENGTH` with the
spec's single standard ceiling (both default to 280). -/
theorem C2_postTweet_routing_and_fallback (env : Env) (cfg : TwitterConfig)
    (text raw : List Char)
    (hceil : cfg.MAX_TWEET_LENGTH = DEFAULT_MAX_TWEET_LENGTH) :
    ((pubCallsOf (postTweet env cfg text raw)).head? =
        some (.longForm, text) ↔ DEFAULT_MAX_TWEET_LENGTH < text.length) ∧
    (text.length ≤ DEFAULT_MAX_TWEET_LENGTH →
      pubCallsOf (postTweet env cfg text raw) = [(.standard, text)]) ∧
    (DEFAULT_MAX_TWEET_LENGTH < text.length →
      env.sendNoteTweet text = .errs →
      pubCallsOf (postTweet env cfg text raw) =
        [(.longForm, text),
          (.standard, truncateToCompleteSentence text cfg.MAX_TWEET_LENGTH)] ∧
      (truncateToCompleteSentence text cfg.MAX_TWEET_LENGTH).length ≤
        DEFAULT_MAX_TWEET_LENGTH ∧
      ((∃ c ∈ text.take cfg.MAX_TWEET_LENGTH, isSentenceEnd c = true) →
        ∃ c, (truncateToCompleteSentence text cfg.MAX_TWEET_LENGTH).getLast? =
          some c ∧ isSentenceEnd c = true)) := by
  have hpc := postTweet_pubCalls env cfg text raw
  by_cases hl : DEFAULT_MAX_TWEET_LENGTH < text.length
  · rw [if_pos hl] at hpc
    have hlen' : cfg.MAX_TWEET_LENGTH < text.length := by omega
    refine ⟨⟨fun _ => hl, fun _ => ?_⟩,
      fun hle => absurd hl (by omega), fun _ herrs => ?_⟩
    · rw [hpc]
      rcases handleNoteTweet_trace env cfg text with h | h <;> rw [h] <;> rfl
    · have htr := handleNoteTweet_trace_errs env cfg text herrs
      refine ⟨by rw [hpc, htr]; rfl, ?_, ?_⟩
      · exact (trunc_length_le text cfg.MAX_TWEET_LENGTH hlen').trans
          (le_of_eq hceil)
      · exact fun hex => trunc_last_sentence text cfg.MAX_TWEET_LENGTH hlen' hex
  · have hpc2 : pubCallsOf (postTweet env cfg text raw) = [(.standard, text)] := by
      rw [hpc, if_neg hl, sendStandardTweet_trace]
      rfl
    refine ⟨⟨fun hhead => ?_, fun hcon => absurd hcon hl⟩,
      fun _ => hpc2, fun hcon => absurd hcon hl⟩
    rw [hpc2] at hhead
    simp at hhead

set_option maxRecDepth 4096 in
/-- Witness for C2 at a concrete 301-character text whose only sentence
terminator sits at position 100, with the long-form call rejected. -/
theorem C2_postTweet_routing_and_fallback_witness :
    pubCallsOf (postTweet envNoteRejected cfgOne longText longText) =
      [(.longForm, longText),
        (.standard,
          truncateToCompleteSentence longText cfgOne.MAX_TWEET_LENGTH)] ∧
    (truncateToCompleteSentence longText cfgOne.MAX_TWEET_LENGTH).length ≤
      DEFAULT_MAX_TWEET_LENGTH ∧
    ∃ c, (truncateToCompleteSentence longText
        cfgOne.MAX_TWEET_LENGTH).getLast? = some c ∧
      isSentenceEnd c = true := by
  have h := (C2_postTweet_routing_and_fallback envNoteRejected cfgOne
    longText longText rfl).2.2 (by decide) rfl
  exact ⟨h.1, h.2.1, h.2.2 (by decide)⟩

/-! Top-hashtag claims -/

theorem mem_firstOccur (s : List String) (x : String) :
    x ∈ firstOccur s ↔ x ∈ s := by
  induction s with
  | nil => simp [firstOccur]
  | cons t s ih =>
    simp only [firstOccur, List.mem_cons, List.mem_filter,
      decide_eq_true_eq, ih]
    by_cases hx : x = t <;> simp [hx]

theorem firstOccur_pairwise_idx (s : List String) :
    (firstOccur s).Pairwise (fun a b => s.indexOf a < s.indexOf b) := by
  induction s with
  | nil => simp [firstOccur]
  | cons t s ih =>
    simp only [firstOccur]
    refine List.pairwise_cons.mpr ⟨?_, ?_⟩
    · intro b hb
      rcases List.mem_filter.mp hb with ⟨_, hbt⟩
      have hbt' : b ≠ t := by simpa using hbt
      rw [List.indexOf_cons_self, List.indexOf_cons_ne _ (Ne.symm hbt')]
      exact Nat.succ_pos _
    · have hpw := List.Pairwise.sublist
        (@List.filter_sublist String (fun x => decide (x ≠ t)) (firstOccur s))
        ih
      refine List.Pairwise.imp_of_mem ?_ hpw
      intro a b ha hb hab
      have ha' : a ≠ t := by simpa using (List.mem_filter.mp ha).2
      have hb' : b ≠ t := by simpa using (List.mem_filter.mp hb).2
      rw [List.indexOf_cons_ne _ (Ne.symm ha'),
        List.indexOf_cons_ne _ (Ne.symm hb')]
      exact Nat.succ_lt_succ hab

theorem count_append_singleton (p : List String) (t x : String) :
    (p ++ [t]).count x = p.count x + if x = t then 1 else 0 := by
  by_cases hx : x = t <;>
    simp [List.count_append, List.count_cons, List.count_nil, hx]

theorem firstOccur_concat (p : List String) (t : String) :
    firstOccur (p ++ [t]) =
      if t ∈ p then firstOccur p else firstOccur p ++ [t] := by
  induction p with
  | nil => simp [firstOccur]
  | cons a p ih =>
    have hstep : firstOccur ((a :: p) ++ [t]) =
        a :: (firstOccur (p ++ [t])).filter (fun x => decide (x ≠ a)) := rfl
    rw [hstep, ih]
    by_cases htp : t ∈ p
    · rw [if_pos htp, if_pos (List.mem_cons_of_mem a htp)]
      rfl
    · rw [if_neg htp]
      by_cases hta : t = a
      · subst hta
        rw [if_pos (List.mem_cons_self t p), List.filter_append]
        have hnil : [t].filter (fun x => decide (x ≠ t)) = [] := by simp
        rw [hnil, List.append_nil]
        rfl
      · rw [if_neg (show t ∉ a :: p by simp [hta, htp]), List.filter_append]
        have hone : [t].filter (fun x => decide (x ≠ a)) = [t] := by
          simp [hta]
        rw [hone]
        rfl

theorem bump_step (p : List String) (t : String) :
    bump ((firstOccur p).map (fun x => (x, p.count x))) t =
      (firstOccur (p ++ [t])).map (fun x => (x, (p ++ [t]).count x)) := by
  unfold bump
  by_cases ht : t ∈ p
  · rw [if_pos (by
      rw [List.any_eq_true]
      exact ⟨(t, p.count t),
        List.mem_map_of_mem _ ((mem_firstOccur p t).mpr ht), by simp⟩)]
    rw [List.map_map, firstOccur_concat, if_pos ht]
    apply List.map_congr_left
    intro x _
    by_cases hxt : x = t
    · subst hxt
      simp [Function.comp, count_append_singleton]
    · simp [Function.comp, hxt, count_append_singleton]
  · have hcond :
        ¬(((firstOccur p).map (fun x => (x, p.count x))).any
          (fun q => decide (q.1 = t)) = true) := by
      intro h
      rw [List.any_eq_true] at h
      rcases h with ⟨q, hq, hqt⟩
      rcases List.mem_map.mp hq with ⟨x, hx, rfl⟩
      simp only [decide_eq_true_eq] at hqt
      subst hqt
      exact ht ((mem_firstOccur p x).mp hx)
    rw [if_neg hcond, firstOccur_concat, if_neg ht, List.map_append]
    congr 1
    · apply List.map_congr_left
      intro x hx
      have hxp : x ∈ p := (mem_firstOccur p x).mp hx
      have hxt : x ≠ t := fun hxt => ht (hxt ▸ hxp)
      simp [count_append_singleton, hxt]
    · have h0 : p.count t = 0 := List.count_eq_zero.mpr ht
      simp [count_append_singleton, h0]

theorem foldl_bump_general :
    ∀ (s p : List String),
      s.foldl bump ((firstOccur p).map (fun x => (x, p.count x))) =
        (firstOccur (p ++ s)).map (fun x => (x, (p ++ s).count x)) := by
  intro s
  induction s with
  | nil => intro p; simp
  | cons t s ih =>
    intro p
    rw [List.foldl_cons, bump_step, ih (p ++ [t]), List.append_assoc]
    rfl

theorem hashtagCount_eq (tweets : List Tweet) :
    hashtagCount tweets =
      (firstOccur (tagStream tweets)).map
        (fun x => (x, (tagStream tweets).count x)) :=
  foldl_bump_general (tagStream tweets) []

theorem insertEntry_perm (a : String × Nat) :
    ∀ l : List (String × Nat), (insertEntry a l).Perm (a :: l) := by
  intro l
  induction l with
  | nil => exact List.Perm.refl _
  | cons b l ih =>
    simp only [insertEntry]
    by_cases h : b.2 ≤ a.2
    · rw [if_pos h]
    · rw [if_neg h]
      exact (ih.cons b).trans (List.Perm.swap a b l)

theorem sortEntriesDesc_perm :
    ∀ l : List (String × Nat), (sortEntriesDesc l).Perm l := by
  intro l
  induction l with
  | nil => exact List.Perm.refl _
  | cons x l ih =>
    have hstep : sortEntriesDesc (x :: l) = insertEntry x (sortEntriesDesc l) :=
      rfl
    rw [hstep]
    exact (insertEntry_perm x _).trans (ih.cons x)

theorem insertEntry_pairwise (Q : (String × Nat) → (String × Nat) → Prop)
    (x : String × Nat) :
    ∀ m : List (String × Nat),
      m.Pairwise (fun a b => b.2 < a.2 ∨ (a.2 = b.2 ∧ Q a b)) →
      (∀ b ∈ m, Q x b) →
      (insertEntry x m).Pairwise
        (fun a b => b.2 < a.2 ∨ (a.2 = b.2 ∧ Q a b)) := by
  intro m
  induction m with
  | nil => intro _ _; simp [insertEntry]
  | cons b m ih =>
    intro hp hq
    rcases List.pairwise_cons.mp hp with ⟨hb, hm⟩
    simp only [insertEntry]
    by_cases hbx : b.2 ≤ x.2
    · rw [if_pos hbx]
      refine List.pairwise_cons.mpr ⟨?_, hp⟩
      intro c hc
      rcases List.mem_cons.mp hc with rfl | hcm
      · rcases Nat.lt_or_ge c.2 x.2 with hlt | hge
        · exact Or.inl hlt
        · exact Or.inr ⟨by omega, hq c (List.mem_cons_self _ _)⟩
      · have hbc := hb c hcm
        have hcle : c.2 ≤ b.2 := by rcases hbc with h | ⟨h, _⟩ <;> omega
        rcases Nat.lt_or_ge c.2 x.2 with hlt | hge
        · exact Or.inl hlt
        · exact Or.inr ⟨by omega, hq c (List.mem_cons_of_mem _ hcm)⟩
    · rw [if_neg hbx]
      refine List.pairwise_cons.mpr
        ⟨?_, ih hm (fun c hc => hq c (List.mem_cons_of_mem _ hc))⟩
      intro c hc
      have hc' : c ∈ x :: m := (insertEntry_perm x m).mem_iff.mp hc
      rcases List.mem_cons.mp hc' with rfl | hcm
      · exact Or.inl (by omega)
      · exact hb c hcm

theorem sortEntriesDesc_pairwise (Q : (String × Nat) → (String × Nat) → Prop) :
    ∀ l : List (String × Nat), l.Pairwise Q →
      (sortEntriesDesc l).Pairwise
        (fun a b => b.2 < a.2 ∨ (a.2 = b.2 ∧ Q a b)) := by
  intro l
  induction l with
  | nil => intro _; simp [sortEntriesDesc]
  | cons x l ih =>
    intro hQ
    rcases List.pairwise_cons.mp hQ with ⟨hx, hl⟩
    have hstep : sortEntriesDesc (x :: l) = insertEntry x (sortEntriesDesc l) :=
      rfl
    rw [hstep]
    exact insertEntry_pairwise Q x (sortEntriesDesc l) (ih hl)
      (fun b hb => hx b ((sortEntriesDesc_perm l).mem_iff.mp hb))

theorem entry_facts (tweets : List Tweet) :
    ∀ q ∈ hashtagCount tweets,
      q.2 = (tagStream tweets).count q.1 ∧ q.1 ∈ tagStream tweets := by
  intro q hq
  rw [hashtagCount_eq] at hq
  rcases List.mem_map.mp hq with ⟨x, hx, rfl⟩
  exact ⟨rfl, (mem_firstOccur _ x).mp hx⟩

/-- C6: `getTopHashtags` returns at most `limit` tags (the source default is
3), each occurring in the input's hashtag stream, ordered by strictly
decreasing occurrence count with ties broken by first-encountered order (the
earlier first occurrence comes first). -/
theorem C6_topHashtags_sorted_bounded (tweets : List Tweet) (limit : Nat) :
    (getTopHashtags tweets limit).length ≤ limit ∧
    (∀ tag ∈ getTopHashtags tweets limit, tag ∈ tagStream tweets) ∧
    (getTopHashtags tweets limit).Pairwise (fun t1 t2 =>
      (tagStream tweets).count t2 < (tagStream tweets).count t1 ∨
      ((tagStream tweets).count t1 = (tagStream tweets).count t2 ∧
        (tagStream tweets).indexOf t1 < (tagStream tweets).indexOf t2)) := by
  refine ⟨?_, ?_, ?_⟩
  · simp only [getTopHashtags, List.length_map, List.length_take]
    omega
  · intro tag htag
    unfold getTopHashtags at htag
    rcases List.mem_map.mp htag with ⟨q, hq, rfl⟩
    have hq' : q ∈ hashtagCount tweets :=
      (sortEntriesDesc_perm _).mem_iff.mp (List.take_subset _ _ hq)
    exact (entry_facts tweets q hq').2
  · have hQ : (hashtagCount tweets).Pairwise
        (fun p q => (tagStream tweets).indexOf p.1 <
          (tagStream tweets).indexOf q.1) := by
      rw [hashtagCount_eq, List.pairwise_map]
      exact firstOccur_pairwise_idx (tagStream tweets)
    have hsorted := sortEntriesDesc_pairwise _ (hashtagCount tweets) hQ
    have htake := List.Pairwise.sublist
      (List.take_sublist limit (sortEntriesDesc (hashtagCount tweets)))
      hsorted
    unfold getTopHashtags
    rw [List.pairwise_map]
    refine List.Pairwise.imp_of_mem ?_ htake
    intro p q hp hq hpq
    have hp' : p ∈ hashtagCount tweets :=
      (sortEntriesDesc_perm _).mem_iff.mp (List.take_subset _ _ hp)
    have hq' : q ∈ hashtagCount tweets :=
      (sortEntriesDesc_perm _).mem_iff.mp (List.take_subset _ _ hq)
    have hpf := (entry_facts tweets p hp').1
    have hqf := (entry_facts tweets q hq').1
    rcases hpq with hlt | ⟨heq, hidx⟩
    · exact Or.inl (by rw [← hpf, ← hqf]; exact hlt)
    · exact Or.inr ⟨by rw [← hpf, ← hqf]; exact heq, hidx⟩

/-- Witness for C6 at the spec's end-to-end scenario: hashtags `["AI"]` and
`["AI", "DeFi"]` yield top hashtags bounded by 3 with "AI" from the input. -/
theorem C6_topHashtags_sorted_bounded_witness :
    (getTopHashtags [hashPost1, hashPost2] 3).length ≤ 3 ∧
    "AI" ∈ tagStream [hashPost1, hashPost2] := by
  have h := C6_topHashtags_sorted_bounded [hashPost1, hashPost2] 3
  exact ⟨h.1, h.2.1 "AI" (by decide)⟩

end Daily

